import Mathlib

/-!
Verification of the ganymede-sdk x402 payment protocol layer.

JavaScript strings are modelled as `List Char` (`JStr`), JS numbers used for
money as `ℚ`, byte buffers as `List Nat` with values below 256.  Stateful
code (the module-level idempotency-key map, the retry loop) is modelled by
explicit state passing; network effects (fetch responses, ledger heights,
facilitator verdicts) are supplied as oracle structures.
-/

namespace Ganymede

/-- JS string, modelled as a list of characters. -/
abbrev JStr := List Char

/-- Does `h` start with `n`?  Building block for JS's `String.includes`. -/
def startsWithL : JStr → JStr → Bool
  | _, [] => true
  | [], _ :: _ => false
  | a :: as, b :: bs => a == b && startsWithL as bs

/-- JS `haystack.includes(needle)`: substring containment. -/
def containsL : JStr → JStr → Bool
  | [], n => n == []
  | h :: t, n => startsWithL (h :: t) n || containsL t n

/-- Decimal digit character for a value below 10. -/
def digitChar (k : Nat) : Char := Char.ofNat (48 + k)

def natDigitsAux : Nat → Nat → JStr
  | 0, _ => []
  | fuel + 1, n =>
    if n < 10 then [digitChar n] else natDigitsAux fuel (n / 10) ++ [digitChar (n % 10)]

/-- Decimal rendering of a natural number, as JS template interpolation and
`Number.prototype.toString` produce it. -/
def natDigits (n : Nat) : JStr := natDigitsAux (n + 1) n

/-- Value of a decimal digit string (fold of the usual base-10 step). -/
def digitsToNat (l : JStr) : Nat :=
  l.foldl (fun a c => 10 * a + (c.toNat - 48)) 0

theorem digitChar_toNat {k : Nat} (h : k < 10) : (digitChar k).toNat = 48 + k := by
  interval_cases k <;> decide

theorem digitChar_isDigit {k : Nat} (h : k < 10) : (digitChar k).isDigit = true := by
  interval_cases k <;> decide

theorem natDigitsAux_all_digit :
    ∀ fuel n, n < fuel → ∀ c ∈ natDigitsAux fuel n, c.isDigit = true := by
  intro fuel
  induction fuel with
  | zero => intro n h; omega
  | succ fuel ih =>
    intro n h c hc
    rw [natDigitsAux] at hc
    split at hc
    · simp only [List.mem_singleton] at hc
      subst hc
      exact digitChar_isDigit (by omega)
    · rename_i h10
      rcases List.mem_append.1 hc with h1 | h2
      · exact ih (n / 10) (by omega) c h1
      · simp only [List.mem_singleton] at h2
        subst h2
        exact digitChar_isDigit (Nat.mod_lt _ (by omega))

theorem natDigits_all_digit (n : Nat) : ∀ c ∈ natDigits n, c.isDigit = true :=
  natDigitsAux_all_digit (n + 1) n (by omega)

theorem natDigits_ne_nil (n : Nat) : natDigits n ≠ [] := by
  rw [natDigits, natDigitsAux]
  split <;> simp

theorem digitsToNat_from (l : JStr) (a : Nat) :
    l.foldl (fun a c => 10 * a + (c.toNat - 48)) a
      = a * 10 ^ l.length + l.foldl (fun a c => 10 * a + (c.toNat - 48)) 0 := by
  induction l generalizing a with
  | nil => simp
  | cons c t ih =>
    simp only [List.foldl_cons]
    rw [ih, ih (10 * 0 + (c.toNat - 48))]
    simp only [List.length_cons, pow_succ]
    ring

theorem digitsToNat_natDigitsAux :
    ∀ fuel n, n < fuel → digitsToNat (natDigitsAux fuel n) = n := by
  intro fuel
  induction fuel with
  | zero => intro n h; omega
  | succ fuel ih =>
    intro n h
    rw [natDigitsAux]
    split
    · simp only [digitsToNat, List.foldl_cons, List.foldl_nil]
      rw [digitChar_toNat (by omega)]
      omega
    · rename_i h10
      simp only [digitsToNat, List.foldl_append, List.foldl_cons, List.foldl_nil]
      have h1 : (natDigitsAux fuel (n / 10)).foldl (fun a c => 10 * a + (c.toNat - 48)) 0
          = n / 10 := ih (n / 10) (by omega)
      rw [h1, digitChar_toNat (Nat.mod_lt _ (by omega))]
      omega

theorem digitsToNat_natDigits (n : Nat) : digitsToNat (natDigits n) = n :=
  digitsToNat_natDigitsAux (n + 1) n (by omega)

theorem natDigits_injective {m n : Nat} (h : natDigits m = natDigits n) : m = n := by
  have := digitsToNat_natDigits m
  rw [h, digitsToNat_natDigits] at this
  omega

/-- Decimal rendering of an integer (JS `Number.prototype.toString` on an
integral value). -/
def intDigits (i : Int) : JStr :=
  if i < 0 then '-' :: natDigits i.natAbs else natDigits i.toNat

/-- Leading run of digit characters, together with the remainder. -/
def takeDigits : JStr → JStr × JStr
  | [] => ([], [])
  | c :: t =>
    if c.isDigit then
      let (ds, r) := takeDigits t
      (c :: ds, r)
    else ([], c :: t)

/-- The remainder does not begin with a digit (used to delimit number runs). -/
def headNotDigit : JStr → Bool
  | [] => true
  | c :: _ => !c.isDigit

theorem takeDigits_run (ds rest : JStr) (hds : ∀ c ∈ ds, c.isDigit = true)
    (hrest : headNotDigit rest = true) : takeDigits (ds ++ rest) = (ds, rest) := by
  induction ds with
  | nil =>
    cases rest with
    | nil => simp [takeDigits]
    | cons c t =>
      simp only [headNotDigit, Bool.not_eq_true'] at hrest
      simp [takeDigits, hrest]
  | cons c t ih =>
    have hc : c.isDigit = true := hds c (List.mem_cons_self _ _)
    have ht := ih (fun x hx => hds x (List.mem_cons_of_mem _ hx))
    simp only [List.cons_append, takeDigits, hc, if_true, List.append_eq, ht]

/-- A digit run followed by an underscore determines both parts: the
underscore terminating the run is the first non-digit, so equal concatenations
force equal components. -/
theorem digitRun_underscore_split (d1 d2 r1 r2 : JStr)
    (h1 : ∀ c ∈ d1, c.isDigit = true) (h2 : ∀ c ∈ d2, c.isDigit = true)
    (heq : d1 ++ '_' :: r1 = d2 ++ '_' :: r2) : d1 = d2 ∧ r1 = r2 := by
  induction d1 generalizing d2 with
  | nil =>
    cases d2 with
    | nil => simpa using heq
    | cons b bs =>
      exfalso
      have hb : b.isDigit = true := h2 b (List.mem_cons_self _ _)
      simp only [List.nil_append, List.cons_append, List.cons.injEq] at heq
      rw [← heq.1] at hb
      simp at hb
  | cons a as ih =>
    cases d2 with
    | nil =>
      exfalso
      have ha : a.isDigit = true := h1 a (List.mem_cons_self _ _)
      simp only [List.nil_append, List.cons_append, List.cons.injEq] at heq
      rw [heq.1] at ha
      simp at ha
    | cons b bs =>
      simp only [List.cons_append, List.cons.injEq] at heq
      obtain ⟨hab, htail⟩ := heq
      have := ih bs (fun c hc => h1 c (List.mem_cons_of_mem _ hc))
        (fun c hc => h2 c (List.mem_cons_of_mem _ hc)) htail
      exact ⟨by rw [hab, this.1], this.2⟩

/-! Base64, as the platform `btoa` / `atob` pair used by both the SDK client
(`x402-fetch.ts`) and the server middleware.  `btoa` maps a string whose code
units are all below 256 to the standard base64 alphabet with `=` padding and
throws otherwise; `atob` inverts it. -/

/-- The standard base64 alphabet. -/
def b64Alphabet : JStr :=
  "ABCDEFGHIJKLMNOPQRSTUVWXYZabcdefghijklmnopqrstuvwxyz0123456789+/".toList

/-- The character encoding a sextet value. -/
def b64Char (n : Nat) : Char := b64Alphabet.getD n 'A'

def b64ValAux : JStr → Nat → Char → Option Nat
  | [], _, _ => none
  | a :: as, i, c => if a = c then some i else b64ValAux as (i + 1) c

/-- The sextet value of an alphabet character (`none` off the alphabet). -/
def b64Val (c : Char) : Option Nat := b64ValAux b64Alphabet 0 c

/-- Encode a byte list in base64 (the body of `btoa`). -/
def btoaBytes : List Nat → JStr
  | [] => []
  | [b0] => [b64Char (b0 / 4), b64Char (b0 % 4 * 16), '=', '=']
  | [b0, b1] => [b64Char (b0 / 4), b64Char (b0 % 4 * 16 + b1 / 16), b64Char (b1 % 16 * 4), '=']
  | b0 :: b1 :: b2 :: rest =>
    b64Char (b0 / 4) :: b64Char (b0 % 4 * 16 + b1 / 16) ::
      b64Char (b1 % 16 * 4 + b2 / 64) :: b64Char (b2 % 64) :: btoaBytes rest

/-- Decode a base64 string to bytes (the body of `atob`): quartets of
sextets, with `=` padding accepted only at the very end. -/
def atobBytes : JStr → Option (List Nat)
  | [] => some []
  | c0 :: c1 :: c2 :: c3 :: rest =>
    if c2 = '=' ∧ c3 = '=' ∧ rest = [] then do
      let v0 ← b64Val c0
      let v1 ← b64Val c1
      pure [v0 * 4 + v1 / 16]
    else if c3 = '=' ∧ rest = [] then do
      let v0 ← b64Val c0
      let v1 ← b64Val c1
      let v2 ← b64Val c2
      pure [v0 * 4 + v1 / 16, v1 % 16 * 16 + v2 / 4]
    else do
      let v0 ← b64Val c0
      let v1 ← b64Val c1
      let v2 ← b64Val c2
      let v3 ← b64Val c3
      let bs ← atobBytes rest
      pure ((v0 * 4 + v1 / 16) :: (v1 % 16 * 16 + v2 / 4) :: (v2 % 4 * 64 + v3) :: bs)
  | _ => none

theorem b64Val_b64Char_all : ∀ n < 64, b64Val (b64Char n) = some n := by decide

theorem b64Val_b64Char {n : Nat} (h : n < 64) : b64Val (b64Char n) = some n :=
  b64Val_b64Char_all n h

theorem b64Char_ne_pad (n : Nat) : b64Char n ≠ '=' := by
  by_cases h : n < 64
  · revert n
    decide
  · have hlen : b64Alphabet.length ≤ n := by
      have : b64Alphabet.length = 64 := by decide
      omega
    simp [b64Char, List.getD, List.getElem?_eq_none hlen]

theorem atobBytes_btoaBytes : ∀ bs : List Nat, (∀ b ∈ bs, b < 256) →
    atobBytes (btoaBytes bs) = some bs
  | [], _ => by simp [btoaBytes, atobBytes]
  | [b0], h => by
    have hb0 : b0 < 256 := h b0 (by simp)
    rw [show btoaBytes [b0]
        = [b64Char (b0 / 4), b64Char (b0 % 4 * 16), '=', '='] from rfl]
    rw [atobBytes]
    rw [if_pos ⟨rfl, rfl, rfl⟩]
    simp only [b64Val_b64Char (show b0 / 4 < 64 by omega),
      b64Val_b64Char (show b0 % 4 * 16 < 64 by omega)]
    simp only [Option.pure_def, Option.bind_eq_bind, Option.some_bind, Option.some.injEq,
      List.cons.injEq]
    refine ⟨by omega, trivial⟩
  | [b0, b1], h => by
    have hb0 : b0 < 256 := h b0 (by simp)
    have hb1 : b1 < 256 := h b1 (by simp)
    rw [show btoaBytes [b0, b1]
        = [b64Char (b0 / 4), b64Char (b0 % 4 * 16 + b1 / 16), b64Char (b1 % 16 * 4), '='] from
      rfl]
    rw [atobBytes]
    rw [if_neg (by intro hc; exact b64Char_ne_pad _ hc.1)]
    rw [if_pos ⟨rfl, rfl⟩]
    simp only [b64Val_b64Char (show b0 / 4 < 64 by omega),
      b64Val_b64Char (show b0 % 4 * 16 + b1 / 16 < 64 by omega),
      b64Val_b64Char (show b1 % 16 * 4 < 64 by omega)]
    simp only [Option.pure_def, Option.bind_eq_bind, Option.some_bind, Option.some.injEq,
      List.cons.injEq]
    refine ⟨by omega, by omega, trivial⟩
  | b0 :: b1 :: b2 :: b3 :: bs, h => by
    have hb0 : b0 < 256 := h b0 (by simp)
    have hb1 : b1 < 256 := h b1 (by simp)
    have hb2 : b2 < 256 := h b2 (by simp)
    have ih := atobBytes_btoaBytes (b3 :: bs) (fun b hb => h b (by simp at hb ⊢; tauto))
    rw [show btoaBytes (b0 :: b1 :: b2 :: b3 :: bs)
        = b64Char (b0 / 4) :: b64Char (b0 % 4 * 16 + b1 / 16) ::
          b64Char (b1 % 16 * 4 + b2 / 64) :: b64Char (b2 % 64) :: btoaBytes (b3 :: bs) from
      rfl]
    rw [atobBytes]
    rw [if_neg (by intro hc; exact b64Char_ne_pad _ hc.1)]
    rw [if_neg (by intro hc; exact b64Char_ne_pad _ hc.1)]
    simp only [b64Val_b64Char (show b0 / 4 < 64 by omega),
      b64Val_b64Char (show b0 % 4 * 16 + b1 / 16 < 64 by omega),
      b64Val_b64Char (show b1 % 16 * 4 + b2 / 64 < 64 by omega),
      b64Val_b64Char (show b2 % 64 < 64 by omega), ih]
    simp only [Option.pure_def, Option.bind_eq_bind, Option.some_bind, Option.some.injEq,
      List.cons.injEq]
    refine ⟨by omega, by omega, by omega, trivial⟩
  | [b0, b1, b2], h => by
    have hb0 : b0 < 256 := h b0 (by simp)
    have hb1 : b1 < 256 := h b1 (by simp)
    have hb2 : b2 < 256 := h b2 (by simp)
    rw [show btoaBytes [b0, b1, b2]
        = b64Char (b0 / 4) :: b64Char (b0 % 4 * 16 + b1 / 16) ::
          b64Char (b1 % 16 * 4 + b2 / 64) :: b64Char (b2 % 64) :: btoaBytes [] from rfl]
    rw [atobBytes]
    rw [if_neg (by intro hc; exact b64Char_ne_pad _ hc.1)]
    rw [if_neg (by intro hc; exact b64Char_ne_pad _ hc.1)]
    simp only [b64Val_b64Char (show b0 / 4 < 64 by omega),
      b64Val_b64Char (show b0 % 4 * 16 + b1 / 16 < 64 by omega),
      b64Val_b64Char (show b1 % 16 * 4 + b2 / 64 < 64 by omega),
      b64Val_b64Char (show b2 % 64 < 64 by omega), atobBytes]
    simp only [Option.pure_def, Option.bind_eq_bind, Option.some_bind, Option.some.injEq,
      List.cons.injEq]
    refine ⟨by omega, by omega, by omega, trivial⟩

/-- All code units below 256 — the domain on which `btoa` does not throw. -/
def latin1 (s : JStr) : Bool := s.all fun c => c.toNat < 256

/-- Platform `btoa`: `none` models the `InvalidCharacterError` throw on code
units above 255. -/
def btoaJs (s : JStr) : Option JStr :=
  if latin1 s then some (btoaBytes (s.map Char.toNat)) else none

/-- Platform `atob`: `none` models the `InvalidCharacterError` throw on
malformed base64. -/
def atobJs (s : JStr) : Option JStr := (atobBytes s).map (List.map Char.ofNat)

theorem atobJs_btoaJs {s t : JStr} (h : btoaJs s = some t) : atobJs t = some s := by
  rw [btoaJs] at h
  split at h
  · rename_i hl
    have hbytes : ∀ b ∈ s.map Char.toNat, b < 256 := by
      intro b hb
      simp only [List.mem_map] at hb
      obtain ⟨c, hc, rfl⟩ := hb
      exact of_decide_eq_true (List.all_eq_true.1 hl c hc)
    have ht : t = btoaBytes (s.map Char.toNat) := (Option.some.inj h).symm
    rw [atobJs, ht, atobBytes_btoaBytes _ hbytes]
    simp [List.map_map, Function.comp_def, Char.ofNat_toNat]
  · exact absurd h (by simp)

/-! Node's `Buffer.toString('base64url')`: same sextets as base64 with the
URL-safe alphabet and no padding.  Used by `generateIdempotencyKey`. -/

/-- The URL-safe base64 alphabet. -/
def b64uAlphabet : JStr :=
  "ABCDEFGHIJKLMNOPQRSTUVWXYZabcdefghijklmnopqrstuvwxyz0123456789-_".toList

def b64uChar (n : Nat) : Char := b64uAlphabet.getD n 'A'

/-- Encode bytes as unpadded base64url. -/
def base64urlBytes : List Nat → JStr
  | [] => []
  | [b0] => [b64uChar (b0 / 4), b64uChar (b0 % 4 * 16)]
  | [b0, b1] => [b64uChar (b0 / 4), b64uChar (b0 % 4 * 16 + b1 / 16), b64uChar (b1 % 16 * 4)]
  | b0 :: b1 :: b2 :: rest =>
    b64uChar (b0 / 4) :: b64uChar (b0 % 4 * 16 + b1 / 16) ::
      b64uChar (b1 % 16 * 4 + b2 / 64) :: b64uChar (b2 % 64) :: base64urlBytes rest

/-- UTF-8 encoding of a string (`TextEncoder.encode` / `Buffer.from`). -/
def utf8Encode : JStr → List Nat
  | [] => []
  | c :: t =>
    let n := c.toNat
    (if n < 128 then [n]
     else if n < 2048 then [192 + n / 64, 128 + n % 64]
     else if n < 65536 then [224 + n / 4096, 128 + n / 64 % 64, 128 + n % 64]
     else [240 + n / 262144, 128 + n / 4096 % 64, 128 + n / 64 % 64, 128 + n % 64])
      ++ utf8Encode t

/-! A JSON value model sufficient for the protocol objects the SDK and server
exchange: strings, non-negative integer numbers, booleans, null and objects.
`stringifyJson` is `JSON.stringify` on such values (member order preserved, no
whitespace); `jsonParse` is the corresponding fragment of `JSON.parse`. -/

inductive Json where
  | str : JStr → Json
  | num : Nat → Json
  | bool : Bool → Json
  | null : Json
  | obj : List (JStr × Json) → Json

mutual

/-- Boolean equality on JSON values. -/
def jsonBeq : Json → Json → Bool
  | .str a, .str b => a == b
  | .num a, .num b => a == b
  | .bool a, .bool b => a == b
  | .null, .null => true
  | .obj a, .obj b => membersBeq a b
  | _, _ => false
termination_by structural a => a

def membersBeq : List (JStr × Json) → List (JStr × Json) → Bool
  | [], [] => true
  | (k1, v1) :: t1, (k2, v2) :: t2 => k1 == k2 && jsonBeq v1 v2 && membersBeq t1 t2
  | _, _ => false
termination_by structural m => m

end

mutual

theorem jsonBeq_eq : ∀ a b : Json, jsonBeq a b = true ↔ a = b
  | .str x, b => by cases b <;> simp [jsonBeq]
  | .num x, b => by cases b <;> simp [jsonBeq]
  | .bool x, b => by cases b <;> simp [jsonBeq]
  | .null, b => by cases b <;> simp [jsonBeq]
  | .obj ms, b => by
    cases b <;> simp [jsonBeq]
    exact membersBeq_eq ms _

theorem membersBeq_eq : ∀ m1 m2 : List (JStr × Json), membersBeq m1 m2 = true ↔ m1 = m2
  | [], m2 => by cases m2 <;> simp [membersBeq]
  | (k, v) :: t, m2 => by
    cases m2 with
    | nil => simp [membersBeq]
    | cons h2 t2 =>
      obtain ⟨k2, v2⟩ := h2
      simp [membersBeq, Bool.and_eq_true, jsonBeq_eq v v2, membersBeq_eq t t2]

end

instance : DecidableEq Json := fun a b => decidable_of_iff _ (jsonBeq_eq a b)

/-- Lowercase hex digit character. -/
def hexChar (n : Nat) : Char := if n < 10 then digitChar n else Char.ofNat (87 + n)

/-- Hex digit value of a character. -/
def hexVal (c : Char) : Option Nat :=
  let n := c.toNat
  if 48 ≤ n ∧ n ≤ 57 then some (n - 48)
  else if 65 ≤ n ∧ n ≤ 70 then some (n - 55)
  else if 97 ≤ n ∧ n ≤ 102 then some (n - 87)
  else none

/-- JSON string escaping of one character, as `JSON.stringify` performs it:
quote and backslash escaped, the named control escapes, `\u00XX` for the
remaining control characters, everything else literal. -/
def escChar (c : Char) : JStr :=
  if c = '"' then ['\\', '"']
  else if c = '\\' then ['\\', '\\']
  else if c.toNat = 8 then ['\\', 'b']
  else if c.toNat = 9 then ['\\', 't']
  else if c.toNat = 10 then ['\\', 'n']
  else if c.toNat = 12 then ['\\', 'f']
  else if c.toNat = 13 then ['\\', 'r']
  else if c.toNat < 32 then ['\\', 'u', '0', '0', hexChar (c.toNat / 16), hexChar (c.toNat % 16)]
  else [c]

def escBody : JStr → JStr
  | [] => []
  | c :: t => escChar c ++ escBody t

/-- A JSON string literal: quote, escaped body, quote. -/
def strQuote (s : JStr) : JStr := '"' :: escBody s ++ ['"']

mutual

def stringifyJson : Json → JStr
  | .str s => strQuote s
  | .num n => natDigits n
  | .bool true => "true".toList
  | .bool false => "false".toList
  | .null => "null".toList
  | .obj ms => '\x7b' :: stringifyMembers ms ++ ['\x7d']
termination_by structural j => j

def stringifyMembers : List (JStr × Json) → JStr
  | [] => []
  | [(k, v)] => strQuote k ++ ':' :: stringifyJson v
  | (k, v) :: m :: ms => strQuote k ++ ':' :: stringifyJson v ++ ',' :: stringifyMembers (m :: ms)
termination_by structural ms => ms

end

mutual

def jsize : Json → Nat
  | .obj ms => msize ms + 1
  | _ => 1

def msize : List (JStr × Json) → Nat
  | [] => 1
  | (_, v) :: ms => jsize v + msize ms + 1

end

/-- Parse the body of a JSON string literal after the opening quote. -/
def parseStringBody : JStr → Option (JStr × JStr)
  | [] => none
  | c :: rest =>
    if c = '"' then some ([], rest)
    else if c = '\\' then
      match rest with
      | [] => none
      | e :: rest2 =>
        if e = '"' then (parseStringBody rest2).map fun p => ('"' :: p.1, p.2)
        else if e = '\\' then (parseStringBody rest2).map fun p => ('\\' :: p.1, p.2)
        else if e = '/' then (parseStringBody rest2).map fun p => ('/' :: p.1, p.2)
        else if e = 'b' then (parseStringBody rest2).map fun p => (Char.ofNat 8 :: p.1, p.2)
        else if e = 't' then (parseStringBody rest2).map fun p => (Char.ofNat 9 :: p.1, p.2)
        else if e = 'n' then (parseStringBody rest2).map fun p => (Char.ofNat 10 :: p.1, p.2)
        else if e = 'f' then (parseStringBody rest2).map fun p => (Char.ofNat 12 :: p.1, p.2)
        else if e = 'r' then (parseStringBody rest2).map fun p => (Char.ofNat 13 :: p.1, p.2)
        else if e = 'u' then
          match rest2 with
          | h1 :: h2 :: h3 :: h4 :: rest3 =>
            match hexVal h1, hexVal h2, hexVal h3, hexVal h4 with
            | some a, some b, some x, some d =>
              (parseStringBody rest3).map fun p =>
                (Char.ofNat (4096 * a + 256 * b + 16 * x + d) :: p.1, p.2)
            | _, _, _, _ => none
          | _ => none
        else none
    else (parseStringBody rest).map fun p => (c :: p.1, p.2)

/-- Parse a JSON number (the non-negative integer fragment). -/
def parseNumBody (s : JStr) : Option (Nat × JStr) :=
  let p := takeDigits s
  if p.1 = [] then none else some (digitsToNat p.1, p.2)

mutual

/-- Fuelled recursive-descent JSON value parser. -/
def parseJsonF : Nat → JStr → Option (Json × JStr)
  | 0, _ => none
  | fuel + 1, s =>
    match s with
    | '"' :: rest => (parseStringBody rest).map fun p => (Json.str p.1, p.2)
    | '\x7b' :: '\x7d' :: rest => some (Json.obj [], rest)
    | '\x7b' :: rest => (parseMembersF fuel rest).map fun p => (Json.obj p.1, p.2)
    | 't' :: 'r' :: 'u' :: 'e' :: rest => some (Json.bool true, rest)
    | 'f' :: 'a' :: 'l' :: 's' :: 'e' :: rest => some (Json.bool false, rest)
    | 'n' :: 'u' :: 'l' :: 'l' :: rest => some (Json.null, rest)
    | s => (parseNumBody s).map fun p => (Json.num p.1, p.2)
termination_by structural fuel => fuel

/-- Parse one or more `"key":value` members, consuming the closing brace. -/
def parseMembersF : Nat → JStr → Option (List (JStr × Json) × JStr)
  | 0, _ => none
  | fuel + 1, s =>
    match s with
    | '"' :: rest =>
      match parseStringBody rest with
      | none => none
      | some (k, r1) =>
        match r1 with
        | ':' :: r2 =>
          match parseJsonF fuel r2 with
          | none => none
          | some (v, r3) =>
            match r3 with
            | ',' :: r4 => (parseMembersF fuel r4).map fun p => ((k, v) :: p.1, p.2)
            | '\x7d' :: r4 => some ([(k, v)], r4)
            | _ => none
        | _ => none
    | _ => none
termination_by structural fuel => fuel

end

/-- JS `JSON.parse` on the modelled fragment: the whole input must be
consumed. -/
def jsonParse (s : JStr) : Option Json :=
  match parseJsonF (s.length + 64) s with
  | some (v, []) => some v
  | _ => none

/-- Property access `j.k` on a parsed JSON value: `none` models `undefined`
(missing key or non-object).  Later duplicate keys win, as in JS. -/
def getField (j : Json) (k : JStr) : Option Json :=
  match j with
  | .obj ms => (ms.reverse.find? fun m => m.1 == k).map Prod.snd
  | _ => none

theorem hexVal_hexChar_all : ∀ x < 16, hexVal (hexChar x) = some x := by decide

theorem hexVal_hexChar {x : Nat} (h : x < 16) : hexVal (hexChar x) = some x :=
  hexVal_hexChar_all x h

theorem parseStringBody_round (s rest : JStr) :
    parseStringBody (escBody s ++ '"' :: rest) = some (s, rest) := by
  induction s with
  | nil =>
    rw [escBody, List.nil_append, parseStringBody.eq_def]
    simp
  | cons c t ih =>
    rw [escBody, escChar]
    split_ifs with h1 h2 h3 h4 h5 h6 h7 h8
    · subst h1
      simp only [List.cons_append, List.nil_append]
      rw [parseStringBody.eq_def]
      simp [ih]
    · subst h2
      simp only [List.cons_append, List.nil_append]
      rw [parseStringBody.eq_def]
      simp [ih]
    · have hc : Char.ofNat 8 = c := by rw [← h3, Char.ofNat_toNat]
      simp only [List.cons_append, List.nil_append]
      rw [parseStringBody.eq_def]
      simp [ih]
      exact hc
    · have hc : Char.ofNat 9 = c := by rw [← h4, Char.ofNat_toNat]
      simp only [List.cons_append, List.nil_append]
      rw [parseStringBody.eq_def]
      simp [ih]
      exact hc
    · have hc : Char.ofNat 10 = c := by rw [← h5, Char.ofNat_toNat]
      simp only [List.cons_append, List.nil_append]
      rw [parseStringBody.eq_def]
      simp [ih]
      exact hc
    · have hc : Char.ofNat 12 = c := by rw [← h6, Char.ofNat_toNat]
      simp only [List.cons_append, List.nil_append]
      rw [parseStringBody.eq_def]
      simp [ih]
      exact hc
    · have hc : Char.ofNat 13 = c := by rw [← h7, Char.ofNat_toNat]
      simp only [List.cons_append, List.nil_append]
      rw [parseStringBody.eq_def]
      simp [ih]
      exact hc
    · -- remaining control characters go through the hex escape
      have hhi : c.toNat / 16 < 16 := by omega
      have hlo : c.toNat % 16 < 16 := by omega
      have hc : Char.ofNat (16 * (c.toNat / 16) + c.toNat % 16) = c := by
        rw [show 16 * (c.toNat / 16) + c.toNat % 16 = c.toNat by omega, Char.ofNat_toNat]
      simp only [List.cons_append, List.nil_append]
      rw [parseStringBody.eq_def]
      simp only [reduceIte, Char.reduceEq, reduceCtorEq, if_false, if_true]
      rw [show hexVal '0' = some 0 from rfl, hexVal_hexChar hhi, hexVal_hexChar hlo]
      simp [ih, hc]
    · -- ordinary character, emitted literally
      simp only [List.cons_append, List.nil_append]
      rw [parseStringBody.eq_def]
      simp [ih, h1, h2]

theorem parseNumBody_round (n : Nat) (rest : JStr) (h : headNotDigit rest = true) :
    parseNumBody (natDigits n ++ rest) = some (n, rest) := by
  rw [parseNumBody, takeDigits_run _ _ (natDigits_all_digit n) h]
  simp [natDigits_ne_nil n, digitsToNat_natDigits]

/-- When the value is a number, the trailing input must not begin with a
digit (the parser takes the maximal digit run); other values need nothing. -/
def numOk : Json → JStr → Prop
  | .num _, rest => headNotDigit rest = true
  | _, _ => True

theorem numOk_nondigit (v : Json) (c : Char) (rest : JStr) (h : c.isDigit = false) :
    numOk v (c :: rest) := by
  cases v <;> simp [numOk, headNotDigit, h]

mutual

theorem jsize_le : ∀ v : Json, jsize v ≤ (stringifyJson v).length + 1
  | .str s => by simp [jsize]
  | .num n => by simp [jsize]
  | .bool true => by simp [jsize]
  | .bool false => by simp [jsize]
  | .null => by simp [jsize]
  | .obj ms => by
    have h := msize_le ms
    simp only [jsize, stringifyJson, List.length_cons, List.length_append, List.length_singleton]
    omega

theorem msize_le : ∀ ms : List (JStr × Json), msize ms ≤ (stringifyMembers ms).length + 1
  | [] => by simp [msize, stringifyMembers]
  | [(k, v)] => by
    have h := jsize_le v
    have hq : (strQuote k).length = (escBody k).length + 2 := by simp [strQuote]
    simp only [msize, stringifyMembers, List.length_append, List.length_cons, hq]
    omega
  | (k, v) :: m :: tail => by
    have h1 := jsize_le v
    have h2 := msize_le (m :: tail)
    have hq : (strQuote k).length = (escBody k).length + 2 := by simp [strQuote]
    simp only [msize] at h2
    simp only [msize, stringifyMembers, List.length_append, List.length_cons, hq]
    omega

end

set_option maxHeartbeats 2000000 in
/-- On input starting with a digit, the value parser dispatches to the
number alternative. -/
theorem parseJsonF_digit (f : Nat) (c : Char) (s' : JStr) (hc : c.isDigit = true) :
    parseJsonF (f + 1) (c :: s') = (parseNumBody (c :: s')).map fun p => (Json.num p.1, p.2) := by
  rw [parseJsonF.eq_def]
  split
  · rename_i heq
    omega
  · split
    · rename_i heq
      injection heq with h1 _
      rw [h1] at hc
      simp at hc
    · rename_i heq
      injection heq with h1 _
      rw [h1] at hc
      simp at hc
    · rename_i heq
      injection heq with h1 _
      rw [h1] at hc
      simp at hc
    · rename_i heq
      injection heq with h1 _
      rw [h1] at hc
      simp at hc
    · rename_i heq
      injection heq with h1 _
      rw [h1] at hc
      simp at hc
    · rename_i heq
      injection heq with h1 _
      rw [h1] at hc
      simp at hc
    · rfl

set_option maxHeartbeats 2000000 in
theorem parse_stringify_round : ∀ f : Nat,
    (∀ (v : Json) (rest : JStr), jsize v ≤ f → numOk v rest →
      parseJsonF f (stringifyJson v ++ rest) = some (v, rest)) ∧
    (∀ (ms : List (JStr × Json)) (rest : JStr), ms ≠ [] → msize ms ≤ f →
      parseMembersF f (stringifyMembers ms ++ '\x7d' :: rest) = some (ms, rest)) := by
  intro f
  induction f with
  | zero =>
    constructor
    · intro v rest hv _
      exfalso
      cases v <;> simp [jsize, msize] at hv
    · intro ms rest _ hm
      exfalso
      cases ms <;> simp [msize] at hm
  | succ f ih =>
    constructor
    · intro v rest hv hnum
      cases v with
      | str s =>
        simp only [stringifyJson, strQuote, List.cons_append, List.append_assoc,
          List.nil_append]
        rw [parseJsonF.eq_def]
        simp [parseStringBody_round]
      | num n =>
        obtain ⟨d, ds, hnd⟩ : ∃ d ds, natDigits n = d :: ds := by
          cases hh : natDigits n with
          | nil => exact absurd hh (natDigits_ne_nil n)
          | cons a b => exact ⟨a, b, rfl⟩
        have hd : d.isDigit = true := natDigits_all_digit n d (hnd ▸ List.mem_cons_self _ _)
        rw [stringifyJson, hnd, List.cons_append, parseJsonF_digit f d (ds ++ rest) hd,
          ← List.cons_append, ← hnd, parseNumBody_round n rest hnum]
        rfl
      | bool b =>
        cases b <;> simp only [stringifyJson, List.cons_append, List.nil_append] <;>
          rw [parseJsonF.eq_def] <;> simp
      | null =>
        simp only [stringifyJson, List.cons_append, List.nil_append]
        rw [parseJsonF.eq_def]
        simp
      | obj ms =>
        cases ms with
        | nil =>
          simp only [stringifyJson, stringifyMembers, List.cons_append, List.nil_append]
          rw [parseJsonF.eq_def]
          simp
        | cons m tail =>
          obtain ⟨k, v0⟩ := m
          have hms : msize ((k, v0) :: tail) ≤ f := by
            simp only [jsize] at hv
            omega
          have hb := ih.2 ((k, v0) :: tail) rest (by simp) hms
          cases tail with
          | nil =>
            simp only [stringifyMembers, strQuote, List.cons_append, List.append_assoc,
              List.nil_append] at hb
            simp only [stringifyJson, stringifyMembers, strQuote, List.cons_append,
              List.append_assoc, List.nil_append]
            rw [parseJsonF.eq_def]
            simp [hb]
          | cons m2 tail2 =>
            simp only [stringifyMembers, strQuote, List.cons_append, List.append_assoc,
              List.nil_append] at hb
            simp only [stringifyJson, stringifyMembers, strQuote, List.cons_append,
              List.append_assoc, List.nil_append]
            rw [parseJsonF.eq_def]
            simp [hb]
    · intro ms rest hne hm
      cases ms with
      | nil => exact absurd rfl hne
      | cons m tail =>
        obtain ⟨k, v⟩ := m
        cases tail with
        | nil =>
          have hjv : jsize v ≤ f := by
            simp only [msize] at hm
            omega
          have hv := ih.1 v ('\x7d' :: rest) hjv (numOk_nondigit v _ _ (by decide))
          simp only [stringifyMembers, strQuote, List.cons_append, List.append_assoc,
            List.nil_append]
          rw [parseMembersF.eq_def]
          simp only [parseStringBody_round, hv]
        | cons m2 tail2 =>
          have hjv : jsize v ≤ f := by
            simp only [msize] at hm
            omega
          have hmt : msize (m2 :: tail2) ≤ f := by
            simp only [msize] at hm ⊢
            omega
          have hv := ih.1 v (',' :: (stringifyMembers (m2 :: tail2) ++ '\x7d' :: rest)) hjv
            (numOk_nondigit v _ _ (by decide))
          have ht := ih.2 (m2 :: tail2) rest (by simp) hmt
          simp only [stringifyMembers, strQuote, List.cons_append, List.append_assoc,
            List.nil_append] at hv ⊢
          rw [parseMembersF.eq_def]
          simp [parseStringBody_round, hv, ht]

/-- Round trip: parsing the serialization of a value recovers it. -/
theorem jsonParse_stringifyJson (v : Json) (hnum : numOk v []) :
    jsonParse (stringifyJson v) = some v := by
  have hsz : jsize v ≤ (stringifyJson v).length + 64 := by
    have := jsize_le v
    omega
  have h := (parse_stringify_round ((stringifyJson v).length + 64)).1 v [] hsz hnum
  rw [List.append_nil] at h
  rw [jsonParse, h]

/-- The serializer is injective (on values with no trailing-digit issue,
which includes every object). -/
theorem stringifyJson_inj {v1 v2 : Json} (h1 : numOk v1 []) (h2 : numOk v2 [])
    (h : stringifyJson v1 = stringifyJson v2) : v1 = v2 := by
  have e1 := jsonParse_stringifyJson v1 h1
  have e2 := jsonParse_stringifyJson v2 h2
  rw [h, e2] at e1
  exact (Option.some.inj e1).symm

/-! Data model shared by client (`x402-fetch.ts`) and server middleware:
the `PaymentRequirements` object carried base64-JSON-encoded in the 402
challenge header. -/

structure AssetInfo where
  address : JStr
  decimals : Nat
  symbol : JStr
deriving DecidableEq

structure PaymentRequirements where
  x402Version : Nat
  scheme : JStr
  network : JStr
  maxAmountRequired : JStr
  amount : JStr
  resource : JStr
  description : JStr
  mimeType : JStr
  payTo : JStr
  maxTimeoutSeconds : Nat
  asset : AssetInfo
deriving DecidableEq

/-- The JSON object literal the middleware serializes (member order as in the
source). -/
def reqToJson (r : PaymentRequirements) : Json :=
  Json.obj
    [("x402Version".toList, Json.num r.x402Version),
     ("scheme".toList, Json.str r.scheme),
     ("network".toList, Json.str r.network),
     ("maxAmountRequired".toList, Json.str r.maxAmountRequired),
     ("amount".toList, Json.str r.amount),
     ("resource".toList, Json.str r.resource),
     ("description".toList, Json.str r.description),
     ("mimeType".toList, Json.str r.mimeType),
     ("payTo".toList, Json.str r.payTo),
     ("maxTimeoutSeconds".toList, Json.num r.maxTimeoutSeconds),
     ("asset".toList, Json.obj
       [("address".toList, Json.str r.asset.address),
        ("decimals".toList, Json.num r.asset.decimals),
        ("symbol".toList, Json.str r.asset.symbol)])]

def asStr : Json → Option JStr
  | .str s => some s
  | _ => none

def asNat : Json → Option Nat
  | .num n => some n
  | _ => none

/-- View of a parsed JSON value as a `PaymentRequirements` record.  The TS
client merely casts `JSON.parse`'s result; the embedding types that cast, so
an object lacking the declared fields is modelled as a decode failure. -/
def toRequirements (j : Json) : Option PaymentRequirements := do
  let ver ← (getField j ("x402Version".toList)).bind asNat
  let scheme ← (getField j ("scheme".toList)).bind asStr
  let network ← (getField j ("network".toList)).bind asStr
  let maxAmt ← (getField j ("maxAmountRequired".toList)).bind asStr
  let amount ← (getField j ("amount".toList)).bind asStr
  let resource ← (getField j ("resource".toList)).bind asStr
  let description ← (getField j ("description".toList)).bind asStr
  let mimeType ← (getField j ("mimeType".toList)).bind asStr
  let payTo ← (getField j ("payTo".toList)).bind asStr
  let maxT ← (getField j ("maxTimeoutSeconds".toList)).bind asNat
  let assetJ ← getField j ("asset".toList)
  let addr ← (getField assetJ ("address".toList)).bind asStr
  let dec ← (getField assetJ ("decimals".toList)).bind asNat
  let sym ← (getField assetJ ("symbol".toList)).bind asStr
  pure ⟨ver, scheme, network, maxAmt, amount, resource, description, mimeType, payTo, maxT,
    ⟨addr, dec, sym⟩⟩

/-- Reading the serialized object back as a requirements record recovers it. -/
theorem toRequirements_reqToJson (r : PaymentRequirements) :
    toRequirements (reqToJson r) = some r := by
  obtain ⟨v, sc, nw, mx, am, rs, ds, mt, pt, mts, ⟨aa, ad, asym⟩⟩ := r
  rfl

/-! The SDK error taxonomy (`GanymedeErrorCode` in `types.ts`). -/

inductive GanymedeErrorCode where
  | WALLET_NOT_CONNECTED
  | WALLET_SIGNING_FAILED
  | PAYMENT_DECLINED
  | PAYMENT_EXCEEDED_LIMIT
  | QUOTE_FAILED
  | SWAP_FAILED
  | NETWORK_ERROR
  | INVALID_PARAMS
deriving DecidableEq

/-! The idempotency registry of `x402-fetch.ts`: a module-level
`Map<string, string>` from `walletAddress:url:method` cache keys to
generated tokens, modelled as an association list threaded explicitly. -/

abbrev IdemState := List (JStr × JStr)

def lookupIdem : IdemState → JStr → Option JStr
  | [], _ => none
  | (k, v) :: t, key => if k == key then some v else lookupIdem t key

/-- `generateIdempotencyKey`: `idem_` + base64url of
`walletAddress:url:method:timestamp`. -/
def generateIdempotencyKey (url method walletAddress : JStr) (timestamp : Nat) : JStr :=
  let uniqueKey := walletAddress ++ ':' :: url ++ ':' :: method ++ ':' :: natDigits timestamp
  "idem_".toList ++ base64urlBytes (utf8Encode uniqueKey)

/-- `getIdempotencyKey`: return the cached token for
`walletAddress:url:method`, creating and caching one if absent. -/
def getIdempotencyKey (url method walletAddress : JStr) (timestamp : Nat)
    (st : IdemState) : JStr × IdemState :=
  let cacheKey := walletAddress ++ ':' :: url ++ ':' :: method
  match lookupIdem st cacheKey with
  | some existing => (existing, st)
  | none =>
    let newKey := generateIdempotencyKey url method walletAddress timestamp
    (newKey, (cacheKey, newKey) :: st)

/-- `clearIdempotencyKeys(walletAddress)`: deletes every entry whose VALUE
(the generated token) contains the wallet address as a substring — exactly as
the source iterates `if (value.includes(walletAddress)) delete`. -/
def clearIdempotencyKeys (walletAddress : JStr) (st : IdemState) : IdemState :=
  st.filter fun p => !containsL p.2 walletAddress

/-- `clearAllIdempotencyKeys`. -/
def clearAllIdempotencyKeys (_st : IdemState) : IdemState := []

/-! The client-side payment wrapper (`wrapFetchWithPayment`), one logical
invocation.  Network responses and clock readings are oracle inputs. -/

structure JsWallet where
  publicKey : Option JStr
  signMessage : Option (List Nat → List Nat)

structure PaymentConfig where
  maxPayment : ℚ
  network : Option JStr
  timeout : Option Nat
  enableIdempotency : Option Bool

structure JsResponse where
  status : Nat
  headerPaymentRequired : Option JStr
  headerXPaymentRequired : Option JStr
deriving DecidableEq

/-- `Response.ok`: status in the 200-299 range. -/
def JsResponse.ok (r : JsResponse) : Bool := decide (200 ≤ r.status) && decide (r.status < 300)

structure FetchEnv where
  firstResponse : JsResponse
  paidResponse : JsResponse
  keyNow : Nat
  payloadNow : Nat

/-- JS `a || b` on nullable strings: empty string is falsy. -/
def jsOrStr : Option JStr → Option JStr → Option JStr
  | some s, other => if s = [] then other else some s
  | none, other => other

/-- `signableWallet.publicKey?.toBase58() || 'unknown'`. -/
def walletAddressOf (w : JsWallet) : JStr :=
  match w.publicKey with
  | some pk => if pk = [] then "unknown".toList else pk
  | none => "unknown".toList

/-- `parsePaymentRequirements`: base64-decode then JSON-parse the challenge
header; `none` models the catch that rethrows `PAYMENT_DECLINED`. -/
def parsePaymentRequirements (header : JStr) : Option PaymentRequirements :=
  (atobJs header).bind fun d => (jsonParse d).bind toRequirements

/-- JS `parseInt`: optional spaces and sign, then a leading digit run;
`none` models `NaN`. -/
def parseIntJS (s : JStr) : Option Int :=
  let t := s.dropWhile fun c => c = ' '
  let signed : Bool × JStr :=
    match t with
    | '-' :: r => (true, r)
    | '+' :: r => (false, r)
    | r => (false, r)
  let ds := (takeDigits signed.2).1
  if ds = [] then none
  else if signed.1 then some (-(digitsToNat ds : Int)) else some ((digitsToNat ds : Int))

/-- The canonical claim object the wallet signs (the `message` literal in
`createPaymentPayload`), including the `Date.now()` timestamp and the
idempotency key. -/
def claimMessage (requirements : PaymentRequirements) (now : Nat)
    (payer idempotencyKey : JStr) : Json :=
  Json.obj
    [("x402Version".toList, Json.num 1),
     ("scheme".toList, Json.str requirements.scheme),
     ("network".toList, Json.str requirements.network),
     ("amount".toList, Json.str requirements.amount),
     ("resource".toList, Json.str requirements.resource),
     ("payTo".toList, Json.str requirements.payTo),
     ("timestamp".toList, Json.num now),
     ("payer".toList, Json.str payer),
     ("idempotencyKey".toList, Json.str idempotencyKey)]

/-- The payload object literal of `createPaymentPayload`. -/
def paymentPayloadJson (requirements : PaymentRequirements) (messageStr : JStr)
    (signature : List Nat) (payer idempotencyKey : JStr) : Json :=
  Json.obj
    [("x402Version".toList, Json.num 1),
     ("scheme".toList, Json.str requirements.scheme),
     ("network".toList, Json.str requirements.network),
     ("payload".toList, Json.obj
       [("message".toList, Json.str messageStr),
        ("signature".toList, Json.str (btoaBytes signature)),
        ("publicKey".toList, Json.str payer),
        ("idempotencyKey".toList, Json.str idempotencyKey)])]

/-- `createPaymentPayload`: capability checks, canonical claim message with
the current timestamp, wallet signature, base64 of the payload JSON.  The
second component counts `wallet.signMessage` invocations. -/
def createPaymentPayload (wallet : JsWallet) (requirements : PaymentRequirements)
    (idempotencyKey : JStr) (now : Nat) : Except GanymedeErrorCode JStr × Nat :=
  match wallet.signMessage with
  | none => (.error .WALLET_SIGNING_FAILED, 0)
  | some signFn =>
    match wallet.publicKey with
    | none => (.error .WALLET_NOT_CONNECTED, 0)
    | some pk =>
      let message := stringifyJson (claimMessage requirements now pk idempotencyKey)
      let signature := (signFn (utf8Encode message)).map fun b => b % 256
      match btoaJs (stringifyJson
          (paymentPayloadJson requirements message signature pk idempotencyKey)) with
      | some out => (.ok out, 1)
      | none => (.error .NETWORK_ERROR, 1)

inductive FetchOutcome where
  | ok (response : JsResponse)
  | error (code : GanymedeErrorCode)
deriving DecidableEq

structure WrapResult where
  outcome : FetchOutcome
  signCalls : Nat
  paidRetry : Bool
  idemKey : JStr
  payload : Option JStr
  state : IdemState
deriving DecidableEq

/-- One invocation of the function returned by `wrapFetchWithPayment`:
derive the idempotency key, issue the request, pass non-402 responses
through, otherwise decode the challenge, enforce the `maxPayment` ceiling,
build and sign the payload, and issue the paid retry exactly once. -/
def wrapFetchWithPayment (wallet : JsWallet) (config : PaymentConfig) (url method : JStr)
    (env : FetchEnv) (st : IdemState) : WrapResult :=
  let walletAddress := walletAddressOf wallet
  let keyed := if config.enableIdempotency ≠ some false
    then getIdempotencyKey url method walletAddress env.keyNow st
    else (generateIdempotencyKey url method walletAddress env.keyNow, st)
  let idempotencyKey := keyed.1
  let st1 := keyed.2
  let response := env.firstResponse
  if response.status ≠ 402 then
    ⟨.ok response, 0, false, idempotencyKey, none, st1⟩
  else
    match jsOrStr response.headerPaymentRequired response.headerXPaymentRequired with
    | none => ⟨.error .PAYMENT_DECLINED, 0, false, idempotencyKey, none, st1⟩
    | some paymentHeader =>
      match parsePaymentRequirements paymentHeader with
      | none => ⟨.error .PAYMENT_DECLINED, 0, false, idempotencyKey, none, st1⟩
      | some requirements =>
        if (match parseIntJS requirements.amount with
            | none => false
            | some a =>
              decide (((a : ℚ) / (10 : ℚ) ^ requirements.asset.decimals) > config.maxPayment)) then
          ⟨.error .PAYMENT_EXCEEDED_LIMIT, 0, false, idempotencyKey, none, st1⟩
        else
          match createPaymentPayload wallet requirements idempotencyKey env.payloadNow with
          | (.error c, n) => ⟨.error c, n, false, idempotencyKey, none, st1⟩
          | (.ok paymentPayload, n) =>
            if env.paidResponse.ok then
              ⟨.ok env.paidResponse, n, true, idempotencyKey, some paymentPayload, st1⟩
            else
              ⟨.error .PAYMENT_DECLINED, n, true, idempotencyKey, some paymentPayload, st1⟩

/-! The transaction submission reliability layer (`client.ts`). -/

def BASE_RETRY_DELAY : Nat := 500
def MAX_RETRY_DELAY : Nat := 5000
def MAX_RETRY_ATTEMPTS : Nat := 3

/-- `getRetryDelay`: bounded exponential backoff. -/
def getRetryDelay (attempt : Nat) : Nat := min (BASE_RETRY_DELAY * 2 ^ attempt) MAX_RETRY_DELAY

/-- `hasTransactionExpired`. -/
def hasTransactionExpired (currentBlockHeight lastValidBlockHeight : Nat) : Bool :=
  decide (currentBlockHeight > lastValidBlockHeight)

/-- The ledger client as an oracle: the height observed at each attempt's
expiry check, each attempt's `sendRawTransaction` outcome (error message on
throw), and each attempt's confirmation outcome (`some err` when the
confirmation reports an on-chain error). -/
structure LedgerOracle where
  heightAt : Nat → Nat
  submitAt : Nat → Except JStr JStr
  confirmAt : Nat → Option JStr

def expiredMsg : JStr :=
  "Transaction blockhash has expired. Please rebuild the transaction.".toList

def expiredKey : JStr := "blockhash has expired".toList

def confirmFailMsg (err : JStr) : JStr := "Transaction failed: ".toList ++ err

def exhaustedMsg (last : JStr) : JStr :=
  "Transaction failed after ".toList ++ natDigits MAX_RETRY_ATTEMPTS ++
    " retry attempts: ".toList ++ last

/-- The body of `sendTransactionWithRetry`'s for-loop.  The second component
records which attempt numbers actually invoked the ledger submit call. -/
def sendTxAux (o : LedgerOracle) (deadlineHeight : Nat) :
    Nat → Nat → Option JStr → Except JStr JStr × List Nat
  | 0, _, lastMsg => (.error (lastMsg.getD []), [])
  | fuel + 1, attempt, _lastMsg =>
    if hasTransactionExpired (o.heightAt attempt) deadlineHeight then
      -- the thrown expiry error is caught; its message contains the marker,
      -- so it is rethrown rather than retried
      if containsL expiredMsg expiredKey then (.error expiredMsg, [])
      else if attempt ≥ MAX_RETRY_ATTEMPTS then (.error (exhaustedMsg expiredMsg), [])
      else sendTxAux o deadlineHeight fuel (attempt + 1) (some expiredMsg)
    else
      match o.submitAt attempt with
      | .error m =>
        if containsL m expiredKey then (.error m, [attempt])
        else if attempt ≥ MAX_RETRY_ATTEMPTS then (.error (exhaustedMsg m), [attempt])
        else
          let r := sendTxAux o deadlineHeight fuel (attempt + 1) (some m)
          (r.1, attempt :: r.2)
      | .ok txid =>
        match o.confirmAt attempt with
        | none => (.ok txid, [attempt])
        | some err =>
          let m := confirmFailMsg err
          if containsL m expiredKey then (.error m, [attempt])
          else if attempt ≥ MAX_RETRY_ATTEMPTS then (.error (exhaustedMsg m), [attempt])
          else
            let r := sendTxAux o deadlineHeight fuel (attempt + 1) (some m)
            (r.1, attempt :: r.2)

/-- `sendTransactionWithRetry`: attempts `0..MAX_RETRY_ATTEMPTS` with the
deadline height captured once at preparation time. -/
def sendTransactionWithRetry (o : LedgerOracle) (deadlineHeight : Nat) :
    Except JStr JStr × List Nat :=
  sendTxAux o deadlineHeight (MAX_RETRY_ATTEMPTS + 1) 0 none

/-! The server middleware (x402 payment middleware): price parsing,
requirement synthesis, challenge encoding, payment verification. -/

/-- JS `parseFloat` on the decimal fragment the pricing table uses; `none`
models `NaN`.  JS numbers are modelled as exact rationals. -/
def parseFloatJS (s : JStr) : Option ℚ :=
  let t := s.dropWhile fun c => c = ' '
  let signed : Bool × JStr :=
    match t with
    | '-' :: r => (true, r)
    | '+' :: r => (false, r)
    | r => (false, r)
  let ip := takeDigits signed.2
  match ip.2 with
  | '.' :: r3 =>
    let fp := takeDigits r3
    if ip.1 = [] ∧ fp.1 = [] then none
    else
      let q : ℚ := (digitsToNat ip.1 : ℚ) + (digitsToNat fp.1 : ℚ) / (10 : ℚ) ^ fp.1.length
      some (if signed.1 then -q else q)
  | _ =>
    if ip.1 = [] then none
    else some (if signed.1 then -(digitsToNat ip.1 : ℚ) else (digitsToNat ip.1 : ℚ))

/-- JS `str.replace('$', '')`: remove the first occurrence only. -/
def removeFirstChar : JStr → Char → JStr
  | [], _ => []
  | c :: t, d => if c = d then t else c :: removeFirstChar t d

/-- `parsePrice`: strip `$`, `parseFloat`, scale by `10^decimals`, floor,
render as a decimal string. -/
def parsePrice (priceString : JStr) (decimals : Nat) : JStr :=
  match parseFloatJS (removeFirstChar priceString '$') with
  | none => "NaN".toList
  | some q => intDigits ⌊q * (10 : ℚ) ^ decimals⌋

/-- `USDC_ADDRESSES`: the static network → asset table. -/
def USDC_ADDRESSES (network : JStr) : Option JStr :=
  if network = "solana:5eykt4UsFv8P8NJdTREpY1vzqKqZKvdp".toList then
    some ("EPjFWdd5AufqSSqeM2qN1xzybapC8G4wEGGkZwyTDt1v".toList)
  else if network = "solana:EtWTRABZaYq6iMfeYKouRu166VU2xqa1".toList then
    some ("4zMMC9srt5Ri5X14GAgXhaHii3GnPAEERYPJgZJDncDU".toList)
  else none

structure PricingConfig where
  price : JStr
  network : JStr
  description : JStr
  mimeType : Option JStr
deriving DecidableEq

/-- JS `o || default` on nullable strings. -/
def jsOrDefault (o : Option JStr) (d : JStr) : JStr :=
  match o with
  | some s => if s = [] then d else s
  | none => d

/-- The `PaymentRequirements` record the middleware synthesizes for a priced
route (given the USDC address already resolved for `config.network`). -/
def buildRequirements (payTo : JStr) (config : PricingConfig) (usdcAddress : JStr)
    (resource : JStr) : PaymentRequirements :=
  ⟨1, "exact".toList, config.network, parsePrice config.price 6, parsePrice config.price 6,
   resource, config.description, jsOrDefault config.mimeType ("application/json".toList),
   payTo, 60, ⟨usdcAddress, 6, "USDC".toList⟩⟩

/-- The challenge header value: `btoa(JSON.stringify(requirements))`;
`none` models the throw on non-Latin-1 serializations. -/
def challengeHeader (r : PaymentRequirements) : Option JStr :=
  btoaJs (stringifyJson (reqToJson r))

/-! The payment verifier (`verifyPayment`). -/

structure VerificationResult where
  valid : Bool
  txHash : Option JStr
  error : Option JStr
deriving DecidableEq

structure FacilitatorResponse where
  valid : Bool
  txHash : Option JStr
  message : Option JStr
deriving DecidableEq

/-- Environment of one verification call: the facilitator's response when it
is reachable and returns ok (`none` covers both the fetch rejection caught
into `null` and a non-ok response), the `NODE_ENV === 'production'` flag, and
the clock and randomness draws used for the pseudo transaction id. -/
structure VerifyEnv where
  facilitator : Option FacilitatorResponse
  production : Bool
  now : Nat
  rand : JStr
deriving DecidableEq

/-- The relaxed-mode pseudo transaction id:
`dev_${Date.now()}_${Math.random().toString(36).slice(2)}`. -/
def pseudoTxHash (now : Nat) (rand : JStr) : JStr :=
  "dev_".toList ++ natDigits now ++ '_' :: rand

/-- Message of the `InvalidCharacterError` thrown by `atob` (caught by the
verifier and surfaced as the reason string). -/
def atobErrMsg : JStr := "The string to be decoded is not correctly encoded.".toList

/-- Message of the `SyntaxError` thrown by `JSON.parse` (caught likewise). -/
def parseErrMsg : JStr := "Unexpected token in JSON".toList

/-- `verifyPayment`.  Returns the `VerificationResult` plus a flag recording
whether the facilitator call was attempted.  Every throwing step is inside
the try, so the function always returns a result — failures carry
`valid := false` and a reason string. -/
def verifyPayment (paymentSignature : JStr) (requirements : PaymentRequirements)
    (env : VerifyEnv) : VerificationResult × Bool :=
  match atobJs paymentSignature with
  | none => (⟨false, none, some atobErrMsg⟩, false)
  | some payloadJson =>
    match jsonParse payloadJson with
    | none => (⟨false, none, some parseErrMsg⟩, false)
    | some payload =>
      if getField payload ("x402Version".toList) ≠ some (Json.num 1) then
        (⟨false, none, some ("Invalid x402 version".toList)⟩, false)
      else if getField payload ("network".toList) ≠ some (Json.str requirements.network) then
        (⟨false, none, some ("Network mismatch".toList)⟩, false)
      else
        match env.facilitator with
        | some result => (⟨result.valid, result.txHash, result.message⟩, true)
        | none =>
          if env.production = false then
            (⟨true, some (pseudoTxHash env.now env.rand), none⟩, true)
          else
            (⟨false, none, some ("Facilitator unavailable".toList)⟩, true)

/-! Helper lemmas about the wrapper's key handling. -/

/-- The idempotency key and registry state a wrapper invocation settles on
are fixed before any response handling: every branch of the body carries
them unchanged. -/
theorem wrapFetch_key_state (wallet : JsWallet) (config : PaymentConfig) (url method : JStr)
    (env : FetchEnv) (st : IdemState) :
    (wrapFetchWithPayment wallet config url method env st).idemKey
        = (if config.enableIdempotency ≠ some false
            then getIdempotencyKey url method (walletAddressOf wallet) env.keyNow st
            else (generateIdempotencyKey url method (walletAddressOf wallet) env.keyNow, st)).1 ∧
    (wrapFetchWithPayment wallet config url method env st).state
        = (if config.enableIdempotency ≠ some false
            then getIdempotencyKey url method (walletAddressOf wallet) env.keyNow st
            else (generateIdempotencyKey url method (walletAddressOf wallet) env.keyNow, st)).2 := by
  constructor <;>
    (rw [wrapFetchWithPayment]
     repeat' first
       | rfl
       | split)

/-- A second lookup for the same (payer, url, method) against the state left
by a first lookup returns the first token again, whatever the timestamps. -/
theorem getIdempotencyKey_stable (url method addr : JStr) (t1 t2 : Nat) (st : IdemState) :
    getIdempotencyKey url method addr t2 (getIdempotencyKey url method addr t1 st).2
      = ((getIdempotencyKey url method addr t1 st).1,
         (getIdempotencyKey url method addr t1 st).2) := by
  cases h : lookupIdem st (addr ++ ':' :: url ++ ':' :: method) with
  | some k =>
    simp only [getIdempotencyKey, h]
  | none =>
    simp only [getIdempotencyKey, h, lookupIdem]
    simp only [beq_self_eq_true, if_true, reduceIte]

/-- C7: for every attempt number `n`, the submission retry delay equals the
base delay (500 ms) times `2 ^ n` clipped to the 5000 ms ceiling; the delay
sequence is non-decreasing, and once it reaches the cap it stays there. -/
theorem c7_retry_delay (n : Nat) :
    getRetryDelay n = min (500 * 2 ^ n) 5000 ∧
    (∀ m, n ≤ m → getRetryDelay n ≤ getRetryDelay m) ∧
    (getRetryDelay n = 5000 → ∀ m, n ≤ m → getRetryDelay m = 5000) := by
  refine ⟨rfl, ?_, ?_⟩
  · intro m hm
    have h2 : 500 * 2 ^ n ≤ 500 * 2 ^ m :=
      Nat.mul_le_mul_left _ (Nat.pow_le_pow_right (by omega) hm)
    simp only [getRetryDelay, BASE_RETRY_DELAY, MAX_RETRY_DELAY]
    exact min_le_min h2 le_rfl
  · intro hcap m hm
    have h2 : 500 * 2 ^ n ≤ 500 * 2 ^ m :=
      Nat.mul_le_mul_left _ (Nat.pow_le_pow_right (by omega) hm)
    simp only [getRetryDelay, BASE_RETRY_DELAY, MAX_RETRY_DELAY] at hcap ⊢
    omega

/-- Witness for C7 at concrete attempt numbers. -/
theorem c7_retry_delay_witness :
    getRetryDelay 1 ≤ getRetryDelay 5 ∧ getRetryDelay 6 = 5000 :=
  ⟨(c7_retry_delay 1).2.1 5 (by decide), (c7_retry_delay 4).2.2 (by decide) 6 (by decide)⟩

/-- C3: whenever the ledger's current height exceeds the captured deadline
height at the top of a retry iteration — at any attempt number and any
remaining attempt budget — the loop returns the blockhash-expired error at
once: the ledger submit call is not invoked at that attempt or any later one
(the recorded submit-call list is empty), so an expired submission is
terminal and never resent. -/
theorem c3_expired_terminal (o : LedgerOracle) (deadlineHeight attempt fuel : Nat)
    (last : Option JStr) (h : o.heightAt attempt > deadlineHeight) :
    sendTxAux o deadlineHeight (fuel + 1) attempt last
      = (Except.error expiredMsg, []) := by
  have hx : hasTransactionExpired (o.heightAt attempt) deadlineHeight = true := by
    simp [hasTransactionExpired, h]
  have hc : containsL expiredMsg expiredKey = true := by decide
  rw [sendTxAux]
  rw [if_pos hx, if_pos hc]

/-- Witness for C3: a ledger stuck past the deadline expires the whole
submission with no submit calls. -/
theorem c3_expired_terminal_witness :
    sendTransactionWithRetry
        ⟨fun _ => 10, fun _ => Except.ok ("tx".toList), fun _ => none⟩ 5
      = (Except.error expiredMsg, []) :=
  c3_expired_terminal ⟨fun _ => 10, fun _ => Except.ok ("tx".toList), fun _ => none⟩ 5 0 3 none
    (by decide)

/-- C2 (code bug evidence): for wallet address `payer`, url `u`, method
`GET`, the first lookup caches a token; a repeated lookup returns the same
token (the claim's first half holds); but `clearIdempotencyKeys "payer"`
removes nothing — the stored token is `idem_` + base64url of
`payer:u:GET:0`, which does not contain the raw address — so the lookup
after invalidation still returns the original token instead of a new one. -/
theorem c2_invalidation_noop :
    (getIdempotencyKey ("u".toList) ("GET".toList) ("payer".toList) 5
        (getIdempotencyKey ("u".toList) ("GET".toList) ("payer".toList) 0 []).2).1
      = (getIdempotencyKey ("u".toList) ("GET".toList) ("payer".toList) 0 []).1 ∧
    clearIdempotencyKeys ("payer".toList)
        (getIdempotencyKey ("u".toList) ("GET".toList) ("payer".toList) 0 []).2
      = (getIdempotencyKey ("u".toList) ("GET".toList) ("payer".toList) 0 []).2 ∧
    (getIdempotencyKey ("u".toList) ("GET".toList) ("payer".toList) 9
        (clearIdempotencyKeys ("payer".toList)
          (getIdempotencyKey ("u".toList) ("GET".toList) ("payer".toList) 0 []).2)).1
      = (getIdempotencyKey ("u".toList) ("GET".toList) ("payer".toList) 0 []).1 := by
  refine ⟨?_, ?_, ?_⟩ <;> decide

/-- C10: with a null wallet `publicKey`, the wrapper derives the idempotency
key from the literal payer string `unknown` rather than failing, so two
invocations by different disconnected wallets against the shared registry for
the same (url, method) settle on the same cached token. -/
theorem c10_unknown_payer (w1 w2 : JsWallet) (c1 c2 : PaymentConfig) (url method : JStr)
    (e1 e2 : FetchEnv) (st : IdemState)
    (h1 : w1.publicKey = none) (h2 : w2.publicKey = none)
    (he1 : c1.enableIdempotency ≠ some false) (he2 : c2.enableIdempotency ≠ some false) :
    walletAddressOf w1 = "unknown".toList ∧
    (wrapFetchWithPayment w2 c2 url method e2
        (wrapFetchWithPayment w1 c1 url method e1 st).state).idemKey
      = (wrapFetchWithPayment w1 c1 url method e1 st).idemKey := by
  have ha1 : walletAddressOf w1 = "unknown".toList := by simp [walletAddressOf, h1]
  have ha2 : walletAddressOf w2 = "unknown".toList := by simp [walletAddressOf, h2]
  refine ⟨ha1, ?_⟩
  have k1 := wrapFetch_key_state w1 c1 url method e1 st
  have k2 := wrapFetch_key_state w2 c2 url method e2
    (wrapFetchWithPayment w1 c1 url method e1 st).state
  rw [k2.1, k1.1, k1.2, if_pos he1, if_pos he2, ha1, ha2]
  rw [getIdempotencyKey_stable]

/-- Witness for C10: two distinct disconnected wallets, a fresh registry. -/
theorem c10_unknown_payer_witness :
    (wrapFetchWithPayment ⟨none, some fun _ => [2]⟩
          ⟨1, none, none, none⟩ ("u".toList) ("GET".toList)
          ⟨⟨200, none, none⟩, ⟨200, none, none⟩, 4, 5⟩
          (wrapFetchWithPayment ⟨none, none⟩ ⟨1, none, none, some true⟩ ("u".toList)
            ("GET".toList) ⟨⟨404, none, none⟩, ⟨200, none, none⟩, 0, 1⟩ []).state).idemKey
      = (wrapFetchWithPayment ⟨none, none⟩ ⟨1, none, none, some true⟩ ("u".toList)
          ("GET".toList) ⟨⟨404, none, none⟩, ⟨200, none, none⟩, 0, 1⟩ []).idemKey :=
  (c10_unknown_payer ⟨none, none⟩ ⟨none, some fun _ => [2]⟩ ⟨1, none, none, some true⟩
    ⟨1, none, none, none⟩ ("u".toList) ("GET".toList)
    ⟨⟨404, none, none⟩, ⟨200, none, none⟩, 0, 1⟩
    ⟨⟨200, none, none⟩, ⟨200, none, none⟩, 4, 5⟩ [] rfl rfl (by decide) (by decide)).2

/-- C9: a `$0.005` pricing entry on a 6-decimal asset yields the atomic-unit
amount string `5000`; in general, whenever the stripped price parses to a
numeric value `q`, `parsePrice` renders `⌊q * 10 ^ decimals⌋` as a decimal
integer string — digits only for non-negative prices, never a
display-currency float. -/
theorem parseFloatJS_005 :
    parseFloatJS (removeFirstChar ("$0.005".toList) '$') = some (1 / 200 : ℚ) := by
  have h : parseFloatJS (removeFirstChar ("$0.005".toList) '$')
      = some (((digitsToNat ['0'] : ℚ) + (digitsToNat ['0', '0', '5'] : ℚ)
          / (10 : ℚ) ^ (['0', '0', '5'] : JStr).length)) := rfl
  rw [h, show digitsToNat ['0'] = 0 from rfl, show digitsToNat ['0', '0', '5'] = 5 from rfl]
  norm_num

theorem c9_price_atomic_units :
    parsePrice ("$0.005".toList) 6 = "5000".toList ∧
    (∀ (p : JStr) (d : Nat) (q : ℚ), parseFloatJS (removeFirstChar p '$') = some q →
      parsePrice p d = intDigits ⌊q * (10 : ℚ) ^ d⌋ ∧
      (0 ≤ q → ∀ c ∈ parsePrice p d, c.isDigit = true)) := by
  constructor
  · rw [parsePrice, parseFloatJS_005]
    show intDigits ⌊(1 / 200 : ℚ) * (10 : ℚ) ^ 6⌋ = "5000".toList
    rw [show ⌊(1 / 200 : ℚ) * (10 : ℚ) ^ 6⌋ = 5000 by norm_num]
    decide
  · intro p d q hq
    constructor
    · rw [parsePrice, hq]
    · intro hq0 c hc
      rw [parsePrice, hq] at hc
      simp only [intDigits] at hc
      have hnn : ¬ (⌊q * (10 : ℚ) ^ d⌋ < 0) := by
        have : (0 : ℤ) ≤ ⌊q * (10 : ℚ) ^ d⌋ := Int.floor_nonneg.mpr (by positivity)
        omega
      rw [if_neg hnn] at hc
      exact natDigits_all_digit _ c hc

/-- Witness for C9's general clause at the concrete price `$0.005`. -/
theorem c9_price_atomic_units_witness :
    parsePrice ("$0.005".toList) 3 = intDigits ⌊(1 / 200 : ℚ) * (10 : ℚ) ^ 3⌋ ∧
    (0 ≤ (1 / 200 : ℚ) → ∀ c ∈ parsePrice ("$0.005".toList) 3, c.isDigit = true) :=
  (c9_price_atomic_units).2 ("$0.005".toList) 3 (1 / 200 : ℚ) parseFloatJS_005

/-- C8: encoding a `PaymentRequirements` as the issuer does (base64 of its
JSON serialization) and decoding it as the client does (base64-decode then
JSON-parse, viewed as a requirements record) recovers the original record,
whenever the encoding succeeds (i.e. `btoa` does not throw). -/
theorem c8_challenge_round_trip (r : PaymentRequirements) (h : JStr)
    (henc : challengeHeader r = some h) :
    parsePaymentRequirements h = some r := by
  rw [parsePaymentRequirements, atobJs_btoaJs henc]
  simp only [Option.some_bind]
  rw [jsonParse_stringifyJson (reqToJson r) trivial]
  simp only [Option.some_bind]
  exact toRequirements_reqToJson r

set_option maxRecDepth 100000 in
/-- Witness for C8 at a concrete requirement (the enhanced-swap pricing
entry). -/
theorem c8_challenge_round_trip_witness :
    parsePaymentRequirements
        ((challengeHeader
          ⟨1, "exact".toList, "solana:EtWTRABZaYq6iMfeYKouRu166VU2xqa1".toList,
           "5000".toList, "5000".toList, "http://localhost:3001/v1/swap/enhanced".toList,
           "Enhanced swap".toList, "application/json".toList,
           "GanyPayee111".toList, 60,
           ⟨"4zMMC9srt5Ri5X14GAgXhaHii3GnPAEERYPJgZJDncDU".toList, 6, "USDC".toList⟩⟩).getD [])
      = some
          ⟨1, "exact".toList, "solana:EtWTRABZaYq6iMfeYKouRu166VU2xqa1".toList,
           "5000".toList, "5000".toList, "http://localhost:3001/v1/swap/enhanced".toList,
           "Enhanced swap".toList, "application/json".toList,
           "GanyPayee111".toList, 60,
           ⟨"4zMMC9srt5Ri5X14GAgXhaHii3GnPAEERYPJgZJDncDU".toList, 6, "USDC".toList⟩⟩ :=
  c8_challenge_round_trip _ _ (by decide)

/-- C5: the verifier returns a `VerificationResult` for every input — every
throwing step is caught inside the function (totality is by construction of
`verifyPayment`, which has no escaping failure path).  Whenever the decoded
payload's protocol version differs from `1`, or its `network` field is not
value-equal to the requirement's network, the result is `valid := false`
with a reason string (referencing the network mismatch in the network case)
and the facilitator is never consulted; the network comparison rejects every
string other than `requirements.network` itself — including strict prefixes
— so it is exact string equality, not a prefix match. -/
theorem c5_verifier_gates (sig : JStr) (req : PaymentRequirements) (env : VerifyEnv)
    (d : JStr) (p : Json) (hd : atobJs sig = some d) (hp : jsonParse d = some p) :
    (getField p ("x402Version".toList) ≠ some (Json.num 1) →
      verifyPayment sig req env
        = (⟨false, none, some ("Invalid x402 version".toList)⟩, false)) ∧
    (∀ n, getField p ("x402Version".toList) = some (Json.num 1) →
      getField p ("network".toList) = some (Json.str n) → n ≠ req.network →
      verifyPayment sig req env
        = (⟨false, none, some ("Network mismatch".toList)⟩, false)) ∧
    (getField p ("x402Version".toList) = some (Json.num 1) →
      getField p ("network".toList) ≠ some (Json.str req.network) →
      verifyPayment sig req env
        = (⟨false, none, some ("Network mismatch".toList)⟩, false)) := by
  refine ⟨?_, ?_, ?_⟩
  · intro hv
    simp only [verifyPayment, hd, hp]
    rw [if_pos hv]
  · intro n h1 h2 h3
    simp only [verifyPayment, hd, hp]
    rw [if_neg (fun hne => hne h1), if_pos (by rw [h2]; simp [h3])]
  · intro h1 h2
    simp only [verifyPayment, hd, hp]
    rw [if_neg (fun hne => hne h1), if_pos h2]

/-- Witness for C5: a payload with version 2 is rejected before the
facilitator; a payload whose network `solana` is a strict prefix of the
requirement's `solana:mainnet` is rejected as a network mismatch. -/
theorem c5_verifier_gates_witness :
    verifyPayment
        ((btoaJs (stringifyJson (Json.obj [("x402Version".toList, Json.num 2)]))).getD [])
        ⟨1, "exact".toList, "solana:mainnet".toList, "5".toList, "5".toList, "r".toList,
          "d".toList, "m".toList, "p".toList, 60, ⟨"a".toList, 6, "USDC".toList⟩⟩
        ⟨none, false, 0, []⟩
      = (⟨false, none, some ("Invalid x402 version".toList)⟩, false) ∧
    verifyPayment
        ((btoaJs (stringifyJson (Json.obj [("x402Version".toList, Json.num 1),
          ("network".toList, Json.str ("solana".toList))]))).getD [])
        ⟨1, "exact".toList, "solana:mainnet".toList, "5".toList, "5".toList, "r".toList,
          "d".toList, "m".toList, "p".toList, 60, ⟨"a".toList, 6, "USDC".toList⟩⟩
        ⟨none, false, 0, []⟩
      = (⟨false, none, some ("Network mismatch".toList)⟩, false) :=
  ⟨(c5_verifier_gates _ _ _
      (stringifyJson (Json.obj [("x402Version".toList, Json.num 2)]))
      (Json.obj [("x402Version".toList, Json.num 2)])
      (by decide) (by decide)).1 (by decide),
   (c5_verifier_gates _ _ _
      (stringifyJson (Json.obj [("x402Version".toList, Json.num 1),
        ("network".toList, Json.str ("solana".toList))]))
      (Json.obj [("x402Version".toList, Json.num 1),
        ("network".toList, Json.str ("solana".toList))])
      (by decide) (by decide)).2.1 ("solana".toList)
     (by decide) (by decide) (by decide)⟩

/-- C6: with the facilitator unreachable and a structurally valid payload
whose version and network match, relaxed (non-production) mode accepts the
payment with the pseudo transaction id `dev_<now>_<rand>`; the id carries
the `dev_` namespace and is injective in the (clock, randomness) draw, so
distinct draws give distinct ids; hardened (production) mode rejects the
same situation. -/
theorem c6_relaxed_fallback (sig : JStr) (req : PaymentRequirements) (env : VerifyEnv)
    (d : JStr) (p : Json) (hd : atobJs sig = some d) (hp : jsonParse d = some p)
    (hv : getField p ("x402Version".toList) = some (Json.num 1))
    (hn : getField p ("network".toList) = some (Json.str req.network))
    (hf : env.facilitator = none) :
    (env.production = false →
      verifyPayment sig req env
          = (⟨true, some (pseudoTxHash env.now env.rand), none⟩, true) ∧
      (pseudoTxHash env.now env.rand).take 4 = "dev_".toList) ∧
    (env.production = true →
      verifyPayment sig req env
        = (⟨false, none, some ("Facilitator unavailable".toList)⟩, true)) ∧
    (∀ n2 r2, pseudoTxHash env.now env.rand = pseudoTxHash n2 r2 →
      env.now = n2 ∧ env.rand = r2) := by
  refine ⟨?_, ?_, ?_⟩
  · intro hprod
    refine ⟨?_, rfl⟩
    simp only [verifyPayment, hd, hp]
    rw [if_neg (fun hne => hne hv), if_neg (fun hne => hne hn), hf]
    simp [hprod]
  · intro hprod
    simp only [verifyPayment, hd, hp]
    rw [if_neg (fun hne => hne hv), if_neg (fun hne => hne hn), hf]
    simp [hprod]
  · intro n2 r2 heq
    simp only [pseudoTxHash] at heq
    have heq2 : natDigits env.now ++ '_' :: env.rand = natDigits n2 ++ '_' :: r2 := by
      simpa using heq
    obtain ⟨h1, h2⟩ := digitRun_underscore_split _ _ _ _
      (natDigits_all_digit _) (natDigits_all_digit _) heq2
    exact ⟨natDigits_injective h1, h2⟩

/-- Witness for C6: a matching payload against an unreachable facilitator in
relaxed and in hardened mode. -/
theorem c6_relaxed_fallback_witness :
    verifyPayment
        ((btoaJs (stringifyJson (Json.obj [("x402Version".toList, Json.num 1),
          ("network".toList, Json.str ("solana:mainnet".toList))]))).getD [])
        ⟨1, "exact".toList, "solana:mainnet".toList, "5".toList, "5".toList, "r".toList,
          "d".toList, "m".toList, "p".toList, 60, ⟨"a".toList, 6, "USDC".toList⟩⟩
        ⟨none, false, 7, "ab".toList⟩
      = (⟨true, some (pseudoTxHash 7 ("ab".toList)), none⟩, true) ∧
    verifyPayment
        ((btoaJs (stringifyJson (Json.obj [("x402Version".toList, Json.num 1),
          ("network".toList, Json.str ("solana:mainnet".toList))]))).getD [])
        ⟨1, "exact".toList, "solana:mainnet".toList, "5".toList, "5".toList, "r".toList,
          "d".toList, "m".toList, "p".toList, 60, ⟨"a".toList, 6, "USDC".toList⟩⟩
        ⟨none, true, 7, "ab".toList⟩
      = (⟨false, none, some ("Facilitator unavailable".toList)⟩, true) :=
  ⟨((c6_relaxed_fallback _ _ _
      (stringifyJson (Json.obj [("x402Version".toList, Json.num 1),
        ("network".toList, Json.str ("solana:mainnet".toList))]))
      (Json.obj [("x402Version".toList, Json.num 1),
        ("network".toList, Json.str ("solana:mainnet".toList))])
      (by decide) (by decide) (by decide) (by decide) rfl).1 rfl).1,
   (c6_relaxed_fallback _ _ _
      (stringifyJson (Json.obj [("x402Version".toList, Json.num 1),
        ("network".toList, Json.str ("solana:mainnet".toList))]))
      (Json.obj [("x402Version".toList, Json.num 1),
        ("network".toList, Json.str ("solana:mainnet".toList))])
      (by decide) (by decide) (by decide) (by decide) rfl).2.1 rfl⟩

/-- C1: whenever the first response is a 402 whose decoded requirement has a
numeric amount whose value in display units exceeds the configured ceiling,
the wrapper fails with `PAYMENT_EXCEEDED_LIMIT`: the wallet's `signMessage`
is never invoked (zero signing calls), no payment payload is built, and no
paid retry request is issued. -/
theorem c1_ceiling_gate (wallet : JsWallet) (config : PaymentConfig) (url method : JStr)
    (env : FetchEnv) (st : IdemState) (h : JStr) (req : PaymentRequirements) (a : Int)
    (h402 : env.firstResponse.status = 402)
    (hheader : jsOrStr env.firstResponse.headerPaymentRequired
        env.firstResponse.headerXPaymentRequired = some h)
    (hreq : parsePaymentRequirements h = some req)
    (hamt : parseIntJS req.amount = some a)
    (hover : (a : ℚ) / (10 : ℚ) ^ req.asset.decimals > config.maxPayment) :
    (wrapFetchWithPayment wallet config url method env st).outcome
        = FetchOutcome.error GanymedeErrorCode.PAYMENT_EXCEEDED_LIMIT ∧
    (wrapFetchWithPayment wallet config url method env st).signCalls = 0 ∧
    (wrapFetchWithPayment wallet config url method env st).paidRetry = false ∧
    (wrapFetchWithPayment wallet config url method env st).payload = none := by
  simp only [wrapFetchWithPayment, h402, hheader, hreq, hamt]
  simp [hover]

set_option maxRecDepth 100000 in
set_option maxHeartbeats 4000000 in
/-- Witness for C1: a challenge demanding 20000 atomic units on a 6-decimal
asset (0.02 in display units) against a 0.01 ceiling. -/
theorem c1_ceiling_gate_witness :
    (wrapFetchWithPayment ⟨some ("PK".toList), some fun _ => [1]⟩
        ⟨1 / 100, none, none, none⟩ ("u".toList) ("POST".toList)
        ⟨⟨402, challengeHeader
            ⟨1, "exact".toList, "net".toList, "20000".toList, "20000".toList, "r".toList,
             "d".toList, "m".toList, "p".toList, 60, ⟨"a".toList, 6, "USDC".toList⟩⟩, none⟩,
          ⟨200, none, none⟩, 0, 0⟩ []).outcome
      = FetchOutcome.error GanymedeErrorCode.PAYMENT_EXCEEDED_LIMIT ∧
    (wrapFetchWithPayment ⟨some ("PK".toList), some fun _ => [1]⟩
        ⟨1 / 100, none, none, none⟩ ("u".toList) ("POST".toList)
        ⟨⟨402, challengeHeader
            ⟨1, "exact".toList, "net".toList, "20000".toList, "20000".toList, "r".toList,
             "d".toList, "m".toList, "p".toList, 60, ⟨"a".toList, 6, "USDC".toList⟩⟩, none⟩,
          ⟨200, none, none⟩, 0, 0⟩ []).signCalls = 0 ∧
    (wrapFetchWithPayment ⟨some ("PK".toList), some fun _ => [1]⟩
        ⟨1 / 100, none, none, none⟩ ("u".toList) ("POST".toList)
        ⟨⟨402, challengeHeader
            ⟨1, "exact".toList, "net".toList, "20000".toList, "20000".toList, "r".toList,
             "d".toList, "m".toList, "p".toList, 60, ⟨"a".toList, 6, "USDC".toList⟩⟩, none⟩,
          ⟨200, none, none⟩, 0, 0⟩ []).paidRetry = false ∧
    (wrapFetchWithPayment ⟨some ("PK".toList), some fun _ => [1]⟩
        ⟨1 / 100, none, none, none⟩ ("u".toList) ("POST".toList)
        ⟨⟨402, challengeHeader
            ⟨1, "exact".toList, "net".toList, "20000".toList, "20000".toList, "r".toList,
             "d".toList, "m".toList, "p".toList, 60, ⟨"a".toList, 6, "USDC".toList⟩⟩, none⟩,
          ⟨200, none, none⟩, 0, 0⟩ []).payload = none :=
  c1_ceiling_gate _ _ _ _ _ []
    ((challengeHeader
        ⟨1, "exact".toList, "net".toList, "20000".toList, "20000".toList, "r".toList,
         "d".toList, "m".toList, "p".toList, 60, ⟨"a".toList, 6, "USDC".toList⟩⟩).getD [])
    ⟨1, "exact".toList, "net".toList, "20000".toList, "20000".toList, "r".toList,
     "d".toList, "m".toList, "p".toList, 60, ⟨"a".toList, 6, "USDC".toList⟩⟩
    20000 rfl (by decide) (by decide) (by decide) (by norm_num)

set_option maxRecDepth 100000 in
set_option maxHeartbeats 4000000 in
/-- C4 counterexample: two wrapper invocations that resolve to the same
idempotency key (same wallet, url, method, shared registry, no invalidation)
at clock readings 0 and 1 build different payment payloads — the payload is
regenerated, not reused, because it embeds `Date.now()`.  The requirement's
amount `x` parses to NaN, so the ceiling comparison is false and both
invocations reach payload creation. -/
theorem c4_payload_regenerated_cex :
    (wrapFetchWithPayment ⟨some ("PK".toList), some fun _ => [1]⟩
        ⟨1, none, none, none⟩ ("u".toList) ("POST".toList)
        ⟨⟨402, challengeHeader
            ⟨1, "exact".toList, "net".toList, "x".toList, "x".toList, "r".toList,
             "d".toList, "m".toList, "p".toList, 60, ⟨"a".toList, 6, "USDC".toList⟩⟩, none⟩,
          ⟨200, none, none⟩, 0, 0⟩ []).idemKey
      = (wrapFetchWithPayment ⟨some ("PK".toList), some fun _ => [1]⟩
        ⟨1, none, none, none⟩ ("u".toList) ("POST".toList)
        ⟨⟨402, challengeHeader
            ⟨1, "exact".toList, "net".toList, "x".toList, "x".toList, "r".toList,
             "d".toList, "m".toList, "p".toList, 60, ⟨"a".toList, 6, "USDC".toList⟩⟩, none⟩,
          ⟨200, none, none⟩, 1, 1⟩
        (wrapFetchWithPayment ⟨some ("PK".toList), some fun _ => [1]⟩
          ⟨1, none, none, none⟩ ("u".toList) ("POST".toList)
          ⟨⟨402, challengeHeader
              ⟨1, "exact".toList, "net".toList, "x".toList, "x".toList, "r".toList,
               "d".toList, "m".toList, "p".toList, 60, ⟨"a".toList, 6, "USDC".toList⟩⟩, none⟩,
            ⟨200, none, none⟩, 0, 0⟩ []).state).idemKey ∧
    (wrapFetchWithPayment ⟨some ("PK".toList), some fun _ => [1]⟩
        ⟨1, none, none, none⟩ ("u".toList) ("POST".toList)
        ⟨⟨402, challengeHeader
            ⟨1, "exact".toList, "net".toList, "x".toList, "x".toList, "r".toList,
             "d".toList, "m".toList, "p".toList, 60, ⟨"a".toList, 6, "USDC".toList⟩⟩, none⟩,
          ⟨200, none, none⟩, 0, 0⟩ []).payload
      ≠ (wrapFetchWithPayment ⟨some ("PK".toList), some fun _ => [1]⟩
        ⟨1, none, none, none⟩ ("u".toList) ("POST".toList)
        ⟨⟨402, challengeHeader
            ⟨1, "exact".toList, "net".toList, "x".toList, "x".toList, "r".toList,
             "d".toList, "m".toList, "p".toList, 60, ⟨"a".toList, 6, "USDC".toList⟩⟩, none⟩,
          ⟨200, none, none⟩, 1, 1⟩
        (wrapFetchWithPayment ⟨some ("PK".toList), some fun _ => [1]⟩
          ⟨1, none, none, none⟩ ("u".toList) ("POST".toList)
          ⟨⟨402, challengeHeader
              ⟨1, "exact".toList, "net".toList, "x".toList, "x".toList, "r".toList,
               "d".toList, "m".toList, "p".toList, 60, ⟨"a".toList, 6, "USDC".toList⟩⟩, none⟩,
            ⟨200, none, none⟩, 0, 0⟩ []).state).payload := by
  refine ⟨?_, ?_⟩ <;> decide

/-- Inversion of a successful `createPaymentPayload`: the wallet had both
capabilities and the output is the base64 of the payload JSON built from the
freshly stringified claim message. -/
theorem createPaymentPayload_ok {w : JsWallet} {req : PaymentRequirements} {k : JStr}
    {n : Nat} {p : JStr} (h : (createPaymentPayload w req k n).1 = Except.ok p) :
    ∃ signFn pk, w.signMessage = some signFn ∧ w.publicKey = some pk ∧
      btoaJs (stringifyJson (paymentPayloadJson req
          (stringifyJson (claimMessage req n pk k))
          ((signFn (utf8Encode (stringifyJson (claimMessage req n pk k)))).map fun b => b % 256)
          pk k)) = some p := by
  cases hs : w.signMessage with
  | none => simp [createPaymentPayload, hs] at h
  | some signFn =>
    cases hpk : w.publicKey with
    | none => simp [createPaymentPayload, hs, hpk] at h
    | some pk =>
      simp only [createPaymentPayload, hs, hpk] at h
      cases hbt : btoaJs (stringifyJson (paymentPayloadJson req
          (stringifyJson (claimMessage req n pk k))
          ((signFn (utf8Encode (stringifyJson (claimMessage req n pk k)))).map fun b => b % 256)
          pk k)) with
      | none => rw [hbt] at h; simp at h
      | some out =>
        rw [hbt] at h
        simp only [Except.ok.injEq] at h
        exact ⟨signFn, pk, rfl, rfl, by rw [hbt, h]⟩

theorem numOk_paymentPayloadJson (req : PaymentRequirements) (m : JStr) (s : List Nat)
    (pk k rest : JStr) : numOk (paymentPayloadJson req m s pk k) rest := by
  simp [paymentPayloadJson, numOk]

theorem numOk_claimMessage (req : PaymentRequirements) (n : Nat) (pk k rest : JStr) :
    numOk (claimMessage req n pk k) rest := by
  simp [claimMessage, numOk]

/-- C4 (amended): payment payloads built for the same idempotency key both
embed that key in their decoded `payload.idempotencyKey` field, but the
payload is rebuilt on every invocation — it embeds the invocation timestamp,
so two successfully built payloads can only be byte-identical when those
timestamps coincide. -/
theorem c4_payload_embeds_key (w : JsWallet) (req1 req2 : PaymentRequirements) (k : JStr)
    (n1 n2 : Nat) (p1 p2 : JStr)
    (h1 : (createPaymentPayload w req1 k n1).1 = Except.ok p1)
    (h2 : (createPaymentPayload w req2 k n2).1 = Except.ok p2) :
    ((((atobJs p1).bind jsonParse).bind fun j => getField j ("payload".toList)).bind
        fun j => getField j ("idempotencyKey".toList)) = some (Json.str k) ∧
    ((((atobJs p2).bind jsonParse).bind fun j => getField j ("payload".toList)).bind
        fun j => getField j ("idempotencyKey".toList)) = some (Json.str k) ∧
    (p1 = p2 → n1 = n2) := by
  obtain ⟨s1, pk1, hs1, hpk1, hb1⟩ := createPaymentPayload_ok h1
  obtain ⟨s2, pk2, hs2, hpk2, hb2⟩ := createPaymentPayload_ok h2
  refine ⟨?_, ?_, ?_⟩
  · rw [atobJs_btoaJs hb1]
    simp only [Option.some_bind]
    rw [jsonParse_stringifyJson _ (numOk_paymentPayloadJson _ _ _ _ _ _)]
    simp only [Option.some_bind]
    rfl
  · rw [atobJs_btoaJs hb2]
    simp only [Option.some_bind]
    rw [jsonParse_stringifyJson _ (numOk_paymentPayloadJson _ _ _ _ _ _)]
    simp only [Option.some_bind]
    rfl
  · intro hpp
    have ha1 := atobJs_btoaJs hb1
    have ha2 := atobJs_btoaJs hb2
    rw [hpp, ha2] at ha1
    have hstr := Option.some.inj ha1
    have hobj := stringifyJson_inj (numOk_paymentPayloadJson _ _ _ _ _ _)
      (numOk_paymentPayloadJson _ _ _ _ _ _) hstr.symm
    simp only [paymentPayloadJson, Json.obj.injEq, List.cons.injEq, Prod.mk.injEq,
      Json.str.injEq, Json.num.injEq, and_true, true_and] at hobj
    have hmsg : stringifyJson (claimMessage req1 n1 pk1 k)
        = stringifyJson (claimMessage req2 n2 pk2 k) := by tauto
    have hcm := stringifyJson_inj (numOk_claimMessage _ _ _ _ _)
      (numOk_claimMessage _ _ _ _ _) hmsg
    simp only [claimMessage, Json.obj.injEq, List.cons.injEq, Prod.mk.injEq,
      Json.str.injEq, Json.num.injEq, and_true, true_and] at hcm
    tauto

set_option maxRecDepth 100000 in
set_option maxHeartbeats 4000000 in
/-- Witness for the amended C4 at a concrete wallet and requirement. -/
theorem c4_payload_embeds_key_witness :
    ((((atobJs ((createPaymentPayload ⟨some ("PK".toList), some fun _ => [1]⟩
          ⟨1, "exact".toList, "net".toList, "5".toList, "5".toList, "r".toList,
           "d".toList, "m".toList, "p".toList, 60, ⟨"a".toList, 6, "USDC".toList⟩⟩
          ("idem_k".toList) 0).1.toOption.getD [])).bind jsonParse).bind
        fun j => getField j ("payload".toList)).bind
        fun j => getField j ("idempotencyKey".toList)) = some (Json.str ("idem_k".toList)) :=
  (c4_payload_embeds_key ⟨some ("PK".toList), some fun _ => [1]⟩
    ⟨1, "exact".toList, "net".toList, "5".toList, "5".toList, "r".toList,
     "d".toList, "m".toList, "p".toList, 60, ⟨"a".toList, 6, "USDC".toList⟩⟩
    ⟨1, "exact".toList, "net".toList, "5".toList, "5".toList, "r".toList,
     "d".toList, "m".toList, "p".toList, 60, ⟨"a".toList, 6, "USDC".toList⟩⟩
    ("idem_k".toList) 0 0
    ((createPaymentPayload ⟨some ("PK".toList), some fun _ => [1]⟩
        ⟨1, "exact".toList, "net".toList, "5".toList, "5".toList, "r".toList,
         "d".toList, "m".toList, "p".toList, 60, ⟨"a".toList, 6, "USDC".toList⟩⟩
        ("idem_k".toList) 0).1.toOption.getD [])
    ((createPaymentPayload ⟨some ("PK".toList), some fun _ => [1]⟩
        ⟨1, "exact".toList, "net".toList, "5".toList, "5".toList, "r".toList,
         "d".toList, "m".toList, "p".toList, 60, ⟨"a".toList, 6, "USDC".toList⟩⟩
        ("idem_k".toList) 0).1.toOption.getD [])
    (by rfl) (by rfl)).1

end Ganymede
